import Mathlib

/-!
Shallow embedding of `src/index.js` (the `ReactiveTable` Lit component).

The component parses two textual inputs (`data`, `schema`) into an in-memory
dataset and schema (`willUpdate`), computes a grid template and renders a
header row, body rows and a footer (`render`, `_getHeaders`, `_getRows`),
and toggles visibility of hidden subrows when an expander cell is clicked
(`_handleToggleExpandClick`).

JSON values are modelled by `ReactiveTable.Value`; a parsed row is either a
plain object (association list) or an array of objects (a grouped row with
subrows).  Rendered cells carry their DOM class tokens, whether the click
listener is attached, and their content.  The click handler is modelled on
the rendered tree exactly as the DOM code does it: it toggles the class
`hidden` on every cell of class `subrow` inside the same `<tr>`, then
toggles `expanded` on the event target.
-/

namespace ReactiveTable

/-- A JSON value as it can appear in a parsed data cell. -/
inductive Value
  | null
  | str (s : String)
  | num (n : Int)
  | bool (b : Bool)
deriving DecidableEq, Repr

/-- A plain row: a JS object, modelled as an association list from field
keys to values (`JSON.parse` of an object literal). -/
def Obj := List (String × Value)
deriving DecidableEq, Repr

/-- Field access `o[key]`: `none` models JS `undefined` (field absent). -/
def lookupField : Obj → String → Option Value
  | [], _ => none
  | (k, v) :: rest, key => if k = key then some v else lookupField rest key

/-- A schema column descriptor `{key, name, default}`. -/
structure Column where
  key : String
  name : String
  default : Value
deriving DecidableEq, Repr

/-- A parsed dataset entry: `Array.isArray(row)` discriminates a grouped
row (array of subrows) from a plain row (object). -/
inductive Row
  | plain (o : Obj)
  | grouped (subs : List Obj)
deriving DecidableEq, Repr

/-- `this._data.some((row) => Array.isArray(row))` (line 117). -/
def hasHiddenRows (data : List Row) : Bool :=
  data.any (fun row => match row with
    | Row.grouped _ => true
    | Row.plain _ => false)

/-- The value shown in a data cell: `row[h.key] ?? h.default` (lines 182,
199).  The nullish coalescing operator falls back to the column default
when the field is absent (`undefined`) or `null`. -/
def cellValue (row : Obj) (h : Column) : Value :=
  match lookupField row h.key with
  | none => h.default
  | some Value.null => h.default
  | some v => v

/-- Content of a rendered cell: empty, literal text, or a data value. -/
inductive Content
  | empty
  | text (s : String)
  | val (v : Value)
deriving DecidableEq, Repr

/-- A rendered `<td>`/`<th>`: its class tokens, whether the `@click`
listener is attached, and its content. -/
structure Cell where
  classes : List String
  clickable : Bool
  content : Content
deriving DecidableEq, Repr

/-- `cell.classList.contains(cls)` — class membership as the DOM sees it. -/
def hasClass (c : Cell) (cls : String) : Bool :=
  c.classes.contains cls

/-- The informational cell rendered for an empty dataset (lines 156-160). -/
def nodataCell : Cell :=
  { classes := ["nodata"], clickable := false,
    content := Content.text "There is no data to show" }

/-- `_getHeaders` (lines 145-151): an empty leading `<th>` when there are
hidden rows, then one `<th>` per schema column showing its `name`. -/
def _getHeaders (schema : List Column) (hasHidden : Bool) : List Cell :=
  (if hasHidden then [{ classes := [], clickable := false, content := Content.empty }] else [])
    ++ schema.map (fun h => { classes := [], clickable := false, content := Content.text h.name })

/-- One subrow of a grouped row (lines 171-185): a leading cell that is the
expander on the first subrow and a hidden subrow marker otherwise — the
`@click` listener is attached to it in both cases — followed by one data
cell per schema column, marked `subrow hidden` on non-first subrows. -/
def groupCellBlock (schema : List Column) (index : Nat) (subrow : Obj) : List Cell :=
  { classes := if index ≠ 0 then ["subrow", "hidden"] else ["expander"],
    clickable := true, content := Content.empty }
    :: schema.map (fun h =>
      { classes := if index ≠ 0 then ["subrow", "hidden"] else [],
        clickable := false, content := Content.val (cellValue subrow h) })

/-- The `<tr>` of a grouped row (lines 169-188): the concatenation of the
per-subrow blocks, `row.map((subrow, index) => ...)`. -/
def renderGroupedRow (schema : List Column) (subs : List Obj) : List Cell :=
  (subs.enum.map (fun p => groupCellBlock schema p.1 p.2)).flatten

/-- The `<tr>` of a plain row (lines 192-202): an empty leading cell when
some other row has hidden subrows, then one data cell per schema column. -/
def renderPlainRow (schema : List Column) (hasHidden : Bool) (o : Obj) : List Cell :=
  (if hasHidden then [{ classes := [], clickable := false, content := Content.empty }] else [])
    ++ schema.map (fun h =>
      { classes := [], clickable := false, content := Content.val (cellValue o h) })

/-- `_getRows` (lines 153-206): the body is a single "no data" row for an
empty dataset, otherwise one `<tr>` per dataset entry. -/
def _getRows (schema : List Column) (hasHidden : Bool) (data : List Row) : List (List Cell) :=
  if data.length = 0 then
    [[nodataCell]]
  else
    data.map (fun row => match row with
      | Row.grouped subs => renderGroupedRow schema subs
      | Row.plain o => renderPlainRow schema hasHidden o)

/-- A CSS grid track: `1rem` or `1fr`. -/
inductive Track
  | rem1
  | fr1
deriving DecidableEq, Repr

/-- The `--gridtemplate` property set by `render` (lines 118-122):
`1rem repeat(n, 1fr)` with hidden rows, `repeat(n, 1fr)` without. -/
def gridTemplate (schema : List Column) (hasHidden : Bool) : List Track :=
  if hasHidden then Track.rem1 :: List.replicate schema.length Track.fr1
  else List.replicate schema.length Track.fr1

/-- The rendered visual tree: grid template, header cells, body rows, and
the footer row's cells. -/
structure RenderedTable where
  gridTemplate : List Track
  headers : List Cell
  body : List (List Cell)
  footer : List Cell
deriving DecidableEq, Repr

/-- `render` (lines 116-143): recompute `hasHiddenRows` and the grid
template, then produce header, body, and a single-cell footer showing
`${this._data.length} records`. -/
def render (schema : List Column) (data : List Row) : RenderedTable :=
  let hh := hasHiddenRows data
  { gridTemplate := gridTemplate schema hh,
    headers := _getHeaders schema hh,
    body := _getRows schema hh data,
    footer := [{ classes := [], clickable := false,
                 content := Content.text (toString data.length ++ " records") }] }

/-- `cell.classList.toggle(cls)` (lines 217, 219): remove the token when
present, append it at the end otherwise, as the DOM token set does. -/
def toggleClass (cls : String) (classes : List String) : List String :=
  if classes.contains cls then classes.erase cls else classes ++ [cls]

/-- `cell.classList.toggle('hidden')` applied to a rendered cell. -/
def toggleHidden (c : Cell) : Cell :=
  { c with classes := toggleClass "hidden" c.classes }

/-- `expander.classList.toggle('expanded')` applied to the event target. -/
def toggleExpanded (c : Cell) : Cell :=
  { c with classes := toggleClass "expanded" c.classes }

/-- The per-cell effect of `row.querySelectorAll('.subrow')` followed by
`cell.classList.toggle('hidden')` (lines 215-218): only cells carrying the
class `subrow` are affected. -/
def toggleIfSubrow (c : Cell) : Cell :=
  if c.classes.contains "subrow" then toggleHidden c else c

/-- Replace the element at an index, leaving the list unchanged when the
index is out of range. -/
def modifyAt (f : α → α) : Nat → List α → List α
  | _, [] => []
  | 0, a :: l => f a :: l
  | n + 1, a :: l => a :: modifyAt f n l

/-- `_handleToggleExpandClick` (lines 212-220) restricted to the clicked
cell's parent `<tr>`: toggle `hidden` on every `.subrow` cell of the row,
then toggle `expanded` on the event target (the cell at `target`). -/
def _handleToggleExpandClick (row : List Cell) (target : Nat) : List Cell :=
  modifyAt toggleExpanded target (row.map toggleIfSubrow)

/-- A click dispatched on the rendered table at body row `i`, cell `k`:
the handler fires only if that cell exists and carries the `@click`
listener; it then rewrites only the parent `<tr>`. -/
def clickAt (t : RenderedTable) (i k : Nat) : RenderedTable :=
  match t.body[i]? with
  | none => t
  | some tr =>
    match tr[k]? with
    | none => t
    | some c =>
      if c.clickable then
        { t with body := modifyAt (fun r => _handleToggleExpandClick r k) i t.body }
      else t

/-- A sequence of clicks applied to the initially rendered table. -/
def applyClicks (schema : List Column) (data : List Row) (clicks : List (Nat × Nat)) :
    RenderedTable :=
  clicks.foldl (fun t p => clickAt t p.1 p.2) (render schema data)

/-- The component's reactive state: the two raw string properties and the
parsed `_data` / `_schema` they were last successfully parsed into. -/
structure TableState where
  data : String
  schema : String
  parsedData : List Row
  parsedSchema : List Column
deriving DecidableEq, Repr

/-- The second statement of `willUpdate` (lines 111-113): parse the schema
when it changed and is truthy.  `none` from the parse function models a
`JSON.parse` exception; the returned flag records whether the update threw
before completing. -/
def willUpdateSchemaStep (parseSchema : String → Option (List Column))
    (changed : List String) (s : TableState) : TableState × Bool :=
  if "schema" ∈ changed ∧ s.schema ≠ "" then
    match parseSchema s.schema with
    | none => (s, true)
    | some sc => ({ s with parsedSchema := sc }, false)
  else (s, false)

/-- `willUpdate` (lines 107-114): re-parse `data` when it changed and is
truthy, then re-parse `schema` likewise.  A `JSON.parse` exception
(`none`) aborts the method at that point: the failed assignment does not
happen and the remaining statement does not run. -/
def willUpdate (parseData : String → Option (List Row))
    (parseSchema : String → Option (List Column))
    (changed : List String) (s : TableState) : TableState × Bool :=
  if "data" ∈ changed ∧ s.data ≠ "" then
    match parseData s.data with
    | none => (s, true)
    | some d => willUpdateSchemaStep parseSchema changed { s with parsedData := d }
  else willUpdateSchemaStep parseSchema changed s

/-! ### Normal forms of rendered grouped rows

`renderGroupedRow` is an `enum`/`flatten` expression; the lemmas below
rewrite it into an explicit first block followed by uniform blocks for the
remaining subrows, and describe the effect of one expander click on it. -/

/-- The explicit cell block of the first subrow (`index = 0`). -/
def firstBlock (schema : List Column) (subrow : Obj) : List Cell :=
  { classes := ["expander"], clickable := true, content := Content.empty }
    :: schema.map (fun h =>
      { classes := [], clickable := false, content := Content.val (cellValue subrow h) })

/-- The explicit cell block of a non-first subrow (`index ≠ 0`). -/
def subBlock (schema : List Column) (subrow : Obj) : List Cell :=
  { classes := ["subrow", "hidden"], clickable := true, content := Content.empty }
    :: schema.map (fun h =>
      { classes := ["subrow", "hidden"], clickable := false, content := Content.val (cellValue subrow h) })

/-- The first block after one expander click: the expander is `expanded`. -/
def firstBlockExpanded (schema : List Column) (subrow : Obj) : List Cell :=
  { classes := ["expander", "expanded"], clickable := true, content := Content.empty }
    :: schema.map (fun h =>
      { classes := [], clickable := false, content := Content.val (cellValue subrow h) })

/-- A non-first block after one expander click: `hidden` removed. -/
def subBlockExpanded (schema : List Column) (subrow : Obj) : List Cell :=
  { classes := ["subrow"], clickable := true, content := Content.empty }
    :: schema.map (fun h =>
      { classes := ["subrow"], clickable := false, content := Content.val (cellValue subrow h) })

/-- The grouped row's `<tr>` after one expander click. -/
def expandedGroupRow (schema : List Column) (sr0 : Obj) (rest : List Obj) : List Cell :=
  firstBlockExpanded schema sr0 ++ (rest.map (subBlockExpanded schema)).flatten

/-- A cell showing a data value (as opposed to header text, the "no data"
message, the footer text, or an empty alignment/expander cell). -/
def isDataCell (c : Cell) : Bool :=
  match c.content with
  | Content.val _ => true
  | _ => false

/-- A cell that is not a subrow cell and not hidden — the invariant kept
by every first-subrow cell across clicks. -/
def neverHiddenCell (c : Cell) : Prop :=
  "subrow" ∉ c.classes ∧ "hidden" ∉ c.classes

/-! ### Concrete fixtures (the worked example of the spec) -/

/-- The schema column of the spec's worked example. -/
def colA : Column := { key := "a", name := "A", default := Value.str "-" }

/-- A second column used in counterexamples. -/
def colX : Column := { key := "x", name := "X", default := Value.str "none" }

/-- The one-column schema `[{key:"a",name:"A",default:"-"}]`. -/
def sampleSchema : List Column := [colA]

/-- The subrow `{a:2}`. -/
def subObj2 : Obj := [("a", Value.num 2)]

/-- The subrow `{a:3}`. -/
def subObj3 : Obj := [("a", Value.num 3)]

/-- The grouped entry `[{a:2},{a:3}]`. -/
def sampleGrouped : List Obj := [subObj2, subObj3]

/-- The dataset `[{a:1}, [{a:2},{a:3}]]`. -/
def sampleData : List Row := [Row.plain [("a", Value.num 1)], Row.grouped sampleGrouped]

/-- A parse function that fails exactly on the string `"bad"`. -/
def failOnBad : String → Option (List Row) :=
  fun str => if str = "bad" then none else some []

/-- A parse function that succeeds exactly on the string `"ok"`. -/
def parseOkSchema : String → Option (List Column) :=
  fun str => if str = "ok" then some [colA] else none

/-- A component state whose `data` string fails to parse while its
`schema` string parses fine. -/
def stateBadData : TableState :=
  { data := "bad", schema := "ok", parsedData := [], parsedSchema := [] }

theorem groupCellBlock_zero (schema : List Column) (sr : Obj) :
    groupCellBlock schema 0 sr = firstBlock schema sr := by
  simp [groupCellBlock, firstBlock]

theorem groupCellBlock_succ (schema : List Column) (n : Nat) (sr : Obj) :
    groupCellBlock schema (n + 1) sr = subBlock schema sr := by
  simp [groupCellBlock, subBlock]

theorem enumFrom_succ_map_block (schema : List Column) (l : List Obj) (n : Nat) :
    (l.enumFrom (n + 1)).map (fun p => groupCellBlock schema p.1 p.2)
      = l.map (subBlock schema) := by
  induction l generalizing n with
  | nil => rfl
  | cons sr rest ih =>
      simp only [List.enumFrom_cons, List.map_cons, groupCellBlock_succ, ih]

theorem renderGroupedRow_nil (schema : List Column) :
    renderGroupedRow schema [] = [] := rfl

theorem renderGroupedRow_cons (schema : List Column) (sr0 : Obj) (rest : List Obj) :
    renderGroupedRow schema (sr0 :: rest)
      = firstBlock schema sr0 ++ (rest.map (subBlock schema)).flatten := by
  unfold renderGroupedRow
  rw [List.enum]
  simp only [List.enumFrom_cons, List.map_cons, List.flatten_cons,
    groupCellBlock_zero, enumFrom_succ_map_block]

theorem map_toggleIfSubrow_firstBlock (schema : List Column) (sr : Obj) :
    (firstBlock schema sr).map toggleIfSubrow = firstBlock schema sr := by
  simp only [firstBlock, List.map_cons, List.map_map]
  exact congrArg₂ List.cons rfl (List.map_congr_left (fun h _ => rfl))

theorem map_toggleIfSubrow_firstBlockExpanded (schema : List Column) (sr : Obj) :
    (firstBlockExpanded schema sr).map toggleIfSubrow = firstBlockExpanded schema sr := by
  simp only [firstBlockExpanded, List.map_cons, List.map_map]
  exact congrArg₂ List.cons rfl (List.map_congr_left (fun h _ => rfl))

theorem map_toggleIfSubrow_subBlock (schema : List Column) (sr : Obj) :
    (subBlock schema sr).map toggleIfSubrow = subBlockExpanded schema sr := by
  simp only [subBlock, subBlockExpanded, List.map_cons, List.map_map]
  exact congrArg₂ List.cons rfl (List.map_congr_left (fun h _ => rfl))

theorem map_toggleIfSubrow_subBlockExpanded (schema : List Column) (sr : Obj) :
    (subBlockExpanded schema sr).map toggleIfSubrow = subBlock schema sr := by
  simp only [subBlockExpanded, subBlock, List.map_cons, List.map_map]
  exact congrArg₂ List.cons rfl (List.map_congr_left (fun h _ => rfl))

theorem modifyAt_zero_cons (f : α → α) (a : α) (l : List α) :
    modifyAt f 0 (a :: l) = f a :: l := rfl

/-- One click on the expander of a collapsed grouped row expands it. -/
theorem click_groupRow_expand (schema : List Column) (sr0 : Obj) (rest : List Obj) :
    _handleToggleExpandClick (renderGroupedRow schema (sr0 :: rest)) 0
      = expandedGroupRow schema sr0 rest := by
  rw [renderGroupedRow_cons]
  unfold _handleToggleExpandClick
  rw [List.map_append, List.map_flatten, List.map_map, map_toggleIfSubrow_firstBlock]
  have hsub : rest.map (List.map toggleIfSubrow ∘ subBlock schema)
      = rest.map (subBlockExpanded schema) :=
    List.map_congr_left (fun sr _ => map_toggleIfSubrow_subBlock schema sr)
  rw [hsub]
  simp only [firstBlock, expandedGroupRow, firstBlockExpanded, List.cons_append,
    modifyAt_zero_cons]
  rfl

/-- A second click on the expander collapses the row back exactly. -/
theorem click_groupRow_collapse (schema : List Column) (sr0 : Obj) (rest : List Obj) :
    _handleToggleExpandClick (expandedGroupRow schema sr0 rest) 0
      = renderGroupedRow schema (sr0 :: rest) := by
  rw [renderGroupedRow_cons]
  unfold _handleToggleExpandClick expandedGroupRow
  rw [List.map_append, List.map_flatten, List.map_map, map_toggleIfSubrow_firstBlockExpanded]
  have hsub : rest.map (List.map toggleIfSubrow ∘ subBlockExpanded schema)
      = rest.map (subBlock schema) :=
    List.map_congr_left (fun sr _ => map_toggleIfSubrow_subBlockExpanded schema sr)
  rw [hsub]
  simp only [firstBlock, firstBlockExpanded, List.cons_append, modifyAt_zero_cons]
  rfl

theorem getElem?_modifyAt (f : α → α) (k p : Nat) (l : List α) :
    (modifyAt f k l)[p]? = if p = k then l[p]?.map f else l[p]? := by
  induction l generalizing k p with
  | nil => simp [modifyAt]
  | cons a l ih =>
      cases k with
      | zero =>
          cases p with
          | zero => simp [modifyAt]
          | succ p => simp [modifyAt]
      | succ k =>
          cases p with
          | zero => simp [modifyAt]
          | succ p => simpa [modifyAt] using ih k p

/-- Indexing a flattening of uniform-length blocks: position `k * B + p`
lands in block `k` at offset `p`. -/
theorem getElem?_flatten_uniform {α : Type _} (B : Nat) :
    ∀ (L : List (List α)) (k p : Nat), (∀ l ∈ L, l.length = B) → p < B →
      L.flatten[k * B + p]? = L[k]?.bind (fun l => l[p]?)
  | [], _, _, _, _ => by simp
  | l :: L, 0, p, hB, hp => by
      have hl : l.length = B := hB l (List.mem_cons_self l L)
      rw [List.flatten_cons, Nat.zero_mul, Nat.zero_add,
        List.getElem?_append_left (by rw [hl]; exact hp)]
      simp
  | l :: L, k + 1, p, hB, hp => by
      have hl : l.length = B := hB l (List.mem_cons_self l L)
      have hL : ∀ x ∈ L, x.length = B := fun x hx => hB x (List.mem_cons_of_mem _ hx)
      have hge : l.length ≤ (k + 1) * B + p := by rw [hl, Nat.succ_mul]; omega
      have hidx : (k + 1) * B + p - l.length = k * B + p := by rw [hl, Nat.succ_mul]; omega
      rw [List.flatten_cons, List.getElem?_append_right hge, hidx,
        getElem?_flatten_uniform B L k p hL hp]
      simp

theorem length_firstBlock (schema : List Column) (sr : Obj) :
    (firstBlock schema sr).length = schema.length + 1 := by
  simp [firstBlock]

theorem length_groupCellBlock (schema : List Column) (i : Nat) (sr : Obj) :
    (groupCellBlock schema i sr).length = schema.length + 1 := by
  simp [groupCellBlock]

/-- Indexing the rendered body of a non-empty dataset. -/
theorem body_getElem? (schema : List Column) (data : List Row) (i : Nat) (row : Row)
    (h : data[i]? = some row) :
    (render schema data).body[i]? = some (match row with
      | Row.grouped subs => renderGroupedRow schema subs
      | Row.plain o => renderPlainRow schema (hasHiddenRows data) o) := by
  have hne : ¬ data.length = 0 := by
    intro h0
    rw [List.length_eq_zero] at h0
    subst h0
    simp at h
  cases row with
  | plain o =>
      simp only [render, _getRows, if_neg hne, List.getElem?_map, h, Option.map_some']
  | grouped subs =>
      simp only [render, _getRows, if_neg hne, List.getElem?_map, h, Option.map_some']

/-- C1: with no grouped row the grid template is one `1fr` per schema
column and the header has one cell per column; with a grouped row the
template gains a leading `1rem` track and the header a leading empty
cell, so the visual column count is the schema length plus one. -/
theorem rendered_column_count (schema : List Column) (data : List Row) :
    (hasHiddenRows data = false →
       (render schema data).gridTemplate = List.replicate schema.length Track.fr1 ∧
       (render schema data).gridTemplate.length = schema.length ∧
       (render schema data).headers = schema.map (fun h =>
         { classes := [], clickable := false, content := Content.text h.name }) ∧
       (render schema data).headers.length = schema.length)
  ∧ (hasHiddenRows data = true →
       (render schema data).gridTemplate = Track.rem1 :: List.replicate schema.length Track.fr1 ∧
       (render schema data).gridTemplate.length = schema.length + 1 ∧
       (render schema data).headers = { classes := [], clickable := false, content := Content.empty }
           :: schema.map (fun h =>
             { classes := [], clickable := false, content := Content.text h.name }) ∧
       (render schema data).headers.length = schema.length + 1) := by
  constructor
  · intro h
    simp [render, gridTemplate, _getHeaders, h]
  · intro h
    simp [render, gridTemplate, _getHeaders, h, Nat.add_comm]

theorem rendered_column_count_witness :
    (render sampleSchema []).gridTemplate.length = 1
  ∧ (render sampleSchema sampleData).gridTemplate.length = 2
  ∧ (render sampleSchema sampleData).headers.length = 2 := by
  refine ⟨((rendered_column_count sampleSchema []).1 (by decide)).2.1, ?_, ?_⟩
  · exact ((rendered_column_count sampleSchema sampleData).2 (by decide)).2.1
  · exact ((rendered_column_count sampleSchema sampleData).2 (by decide)).2.2.2

/-- C8: an empty dataset renders exactly one informational "no data" row
and no data cells at all. -/
theorem empty_dataset_nodata_row (schema : List Column) :
    (render schema []).body = [[nodataCell]]
  ∧ (render schema []).body.length = 1
  ∧ ((render schema []).body.flatten.countP isDataCell) = 0 := by
  exact ⟨rfl, rfl, rfl⟩

/-- C9: the footer is a single cell showing `<N> records` where `N` is the
number of top-level dataset entries (one per grouped row, not one per
subrow). -/
theorem footer_record_count (schema : List Column) (data : List Row) :
    (render schema data).footer
      = [⟨[], false, Content.text (toString data.length ++ " records")⟩]
  ∧ (render schema data).footer.length = 1 := by
  exact ⟨rfl, rfl⟩

theorem renderPlainRow_getElem? (schema : List Column) (hh : Bool) (o : Obj)
    (j : Nat) (c : Column) (hS : schema[j]? = some c) :
    (renderPlainRow schema hh o)[(if hh then 1 else 0) + j]?
      = some ⟨[], false, Content.val (cellValue o c)⟩ := by
  cases hh with
  | false => simp [renderPlainRow, hS]
  | true =>
      simp only [renderPlainRow, if_pos, List.singleton_append]
      rw [Nat.add_comm 1 j, List.getElem?_cons_succ, List.getElem?_map, hS, Option.map_some']

/-- C2: every rendered data cell of a plain row or of a grouped row's
subrow shows `row[c.key] ?? c.default`: the field value when present and
not nullish, the column default otherwise. -/
theorem rendered_cell_values (schema : List Column) (data : List Row) (c : Column)
    (i j : Nat) (hS : schema[j]? = some c) :
    (∀ r, data[i]? = some (Row.plain r) →
       ((render schema data).body[i]?.bind
           (fun tr => tr[(if hasHiddenRows data then 1 else 0) + j]?))
         = some ⟨[], false, Content.val (cellValue r c)⟩)
  ∧ (∀ subs k sr, data[i]? = some (Row.grouped subs) → subs[k]? = some sr →
       ((render schema data).body[i]?.bind
           (fun tr => tr[k * (schema.length + 1) + (1 + j)]?))
         = some ⟨if k ≠ 0 then ["subrow", "hidden"] else [], false,
                 Content.val (cellValue sr c)⟩)
  ∧ (∀ r v, lookupField r c.key = some v → v ≠ Value.null → cellValue r c = v)
  ∧ (∀ r, lookupField r c.key = none ∨ lookupField r c.key = some Value.null →
       cellValue r c = c.default) := by
  obtain ⟨hj, -⟩ := List.getElem?_eq_some.mp hS
  refine ⟨?_, ?_, ?_, ?_⟩
  · intro r h
    rw [body_getElem? schema data i _ h]
    simpa using renderPlainRow_getElem? schema (hasHiddenRows data) r j c hS
  · intro subs k sr hD hk
    rw [body_getElem? schema data i _ hD]
    simp only [Option.some_bind]
    have hB : ∀ l ∈ subs.enum.map (fun p => groupCellBlock schema p.1 p.2),
        l.length = schema.length + 1 := by
      intro l hl
      obtain ⟨p, -, rfl⟩ := List.mem_map.mp hl
      exact length_groupCellBlock schema p.1 p.2
    have hflat := getElem?_flatten_uniform (schema.length + 1)
      (subs.enum.map (fun p => groupCellBlock schema p.1 p.2)) k (1 + j) hB (by omega)
    unfold renderGroupedRow
    rw [hflat, List.getElem?_map, List.getElem?_enum, hk, Option.map_some',
      Option.map_some', Option.some_bind, Nat.add_comm 1 j, groupCellBlock,
      List.getElem?_cons_succ, List.getElem?_map, hS, Option.map_some']
  · intro r v hv hne
    unfold cellValue
    rw [hv]
    cases v with
    | null => exact absurd rfl hne
    | str s => rfl
    | num n => rfl
    | bool b => rfl
  · intro r h
    rcases h with h | h <;> (unfold cellValue; rw [h])

theorem rendered_cell_values_witness :
    ((render sampleSchema sampleData).body[1]?.bind
        (fun tr => tr[1 * (sampleSchema.length + 1) + (1 + 0)]?))
      = some ⟨["subrow", "hidden"], false, Content.val (Value.num 3)⟩
  ∧ ((render sampleSchema sampleData).body[0]?.bind
        (fun tr => tr[(if hasHiddenRows sampleData then 1 else 0) + 0]?))
      = some ⟨[], false, Content.val (Value.num 1)⟩ := by
  constructor
  · have h := (rendered_cell_values sampleSchema sampleData colA 1 0 (by decide)).2.1
      sampleGrouped 1 subObj3 (by decide) (by decide)
    simpa using h
  · have h := (rendered_cell_values sampleSchema sampleData colA 0 0 (by decide)).1
      [("a", Value.num 1)] (by decide)
    simpa using h

/-- C7 (amended): the first subrow's leading cell is the expander control
and the leading cells of non-first subrows are empty cells marked as
hidden subrow-markers, but the click listener is attached to all of them
alike. -/
theorem subrow_lead_cells (schema : List Column) (subs : List Obj) (k : Nat) (sr : Obj)
    (h : subs[k]? = some sr) :
    (renderGroupedRow schema subs)[k * (schema.length + 1)]?
      = some ⟨if k ≠ 0 then ["subrow", "hidden"] else ["expander"], true, Content.empty⟩ := by
  have hB : ∀ l ∈ subs.enum.map (fun p => groupCellBlock schema p.1 p.2),
      l.length = schema.length + 1 := by
    intro l hl
    obtain ⟨p, -, rfl⟩ := List.mem_map.mp hl
    exact length_groupCellBlock schema p.1 p.2
  have hflat := getElem?_flatten_uniform (schema.length + 1)
    (subs.enum.map (fun p => groupCellBlock schema p.1 p.2)) k 0 hB (Nat.succ_pos _)
  rw [Nat.add_zero] at hflat
  unfold renderGroupedRow
  rw [hflat, List.getElem?_map, List.getElem?_enum, h, Option.map_some',
    Option.map_some', Option.some_bind, groupCellBlock, List.getElem?_cons_zero]

theorem subrow_lead_cells_witness :
    (renderGroupedRow sampleSchema sampleGrouped)[0]?
      = some ⟨["expander"], true, Content.empty⟩
  ∧ (renderGroupedRow sampleSchema sampleGrouped)[2]?
      = some ⟨["subrow", "hidden"], true, Content.empty⟩ := by
  constructor
  · have h := subrow_lead_cells sampleSchema sampleGrouped 0 subObj2 (by decide)
    simpa using h
  · have h := subrow_lead_cells sampleSchema sampleGrouped 1 subObj3 (by decide)
    simpa using h

/-- C7 counterexample: the leading cell of the second subrow does carry
the click listener, and once the row is expanded, a click dispatched on
that cell fires the toggle handler and changes the body. -/
theorem subrow_lead_clickable_cex :
    ((render sampleSchema sampleData).body[1]?.bind (fun tr => tr[2]?)).map Cell.clickable
      = some true
  ∧ (clickAt (clickAt (render sampleSchema sampleData) 1 0) 1 2).body
      ≠ (clickAt (render sampleSchema sampleData) 1 0).body := by
  constructor
  · decide
  · decide

/-- C3: clicking a grouped row's expander an even number of times returns
the row to its initial collapsed rendering; an odd number of clicks
leaves it expanded with every hidden-subrow cell visible; each click
flips the expander's `expanded` state, and the toggle is an involution. -/
theorem expander_toggle_involution (schema : List Column) (sr0 : Obj) (rest : List Obj)
    (n : Nat) :
    (fun r => _handleToggleExpandClick r 0)^[2 * n]
        (renderGroupedRow schema (sr0 :: rest)) = renderGroupedRow schema (sr0 :: rest)
  ∧ (fun r => _handleToggleExpandClick r 0)^[2 * n + 1]
        (renderGroupedRow schema (sr0 :: rest)) = expandedGroupRow schema sr0 rest
  ∧ _handleToggleExpandClick
        (_handleToggleExpandClick (renderGroupedRow schema (sr0 :: rest)) 0) 0
      = renderGroupedRow schema (sr0 :: rest)
  ∧ ((expandedGroupRow schema sr0 rest).all (fun c => !(hasClass c "hidden"))) = true
  ∧ ((renderGroupedRow schema (sr0 :: rest))[0]?.map (fun c => hasClass c "expanded"))
      = some false
  ∧ ((expandedGroupRow schema sr0 rest)[0]?.map (fun c => hasClass c "expanded"))
      = some true := by
  have hx := click_groupRow_expand schema sr0 rest
  have hy := click_groupRow_collapse schema sr0 rest
  have hff : (fun r => _handleToggleExpandClick r 0)^[2]
      (renderGroupedRow schema (sr0 :: rest)) = renderGroupedRow schema (sr0 :: rest) := by
    show _handleToggleExpandClick
        (_handleToggleExpandClick (renderGroupedRow schema (sr0 :: rest)) 0) 0
      = renderGroupedRow schema (sr0 :: rest)
    rw [hx, hy]
  have heven : ∀ m, (fun r => _handleToggleExpandClick r 0)^[2 * m]
      (renderGroupedRow schema (sr0 :: rest)) = renderGroupedRow schema (sr0 :: rest) := by
    intro m
    induction m with
    | zero => rfl
    | succ m ih =>
        have h2 : 2 * (m + 1) = 2 * m + 2 := by ring
        rw [h2, Function.iterate_add_apply, hff, ih]
  have hodd : (fun r => _handleToggleExpandClick r 0)^[2 * n + 1]
      (renderGroupedRow schema (sr0 :: rest)) = expandedGroupRow schema sr0 rest := by
    rw [Function.iterate_succ_apply', heven n]
    exact hx
  have hall : ((expandedGroupRow schema sr0 rest).all (fun c => !(hasClass c "hidden"))) = true := by
    rw [List.all_eq_true]
    intro c hc
    rcases List.mem_append.mp hc with hc | hc
    · rcases List.mem_cons.mp hc with rfl | hc
      · rfl
      · obtain ⟨h, -, rfl⟩ := List.mem_map.mp hc
        rfl
    · obtain ⟨l, hl, hcl⟩ := List.mem_flatten.mp hc
      obtain ⟨sr, -, rfl⟩ := List.mem_map.mp hl
      rcases List.mem_cons.mp hcl with rfl | hcl
      · rfl
      · obtain ⟨h, -, rfl⟩ := List.mem_map.mp hcl
        rfl
  refine ⟨heven n, hodd, by rw [hx, hy], hall, ?_, ?_⟩
  · rw [renderGroupedRow_cons, firstBlock, List.cons_append, List.getElem?_cons_zero]
    rfl
  · rw [expandedGroupRow, firstBlockExpanded, List.cons_append, List.getElem?_cons_zero]
    rfl

theorem clickAt_frame (t : RenderedTable) (i k : Nat) :
    (clickAt t i k).headers = t.headers
  ∧ (clickAt t i k).footer = t.footer
  ∧ (clickAt t i k).gridTemplate = t.gridTemplate
  ∧ (∀ j, j ≠ i → (clickAt t i k).body[j]? = t.body[j]?) := by
  unfold clickAt
  split
  · exact ⟨rfl, rfl, rfl, fun j hj => rfl⟩
  · split
    · exact ⟨rfl, rfl, rfl, fun j hj => rfl⟩
    · split
      · refine ⟨rfl, rfl, rfl, fun j hj => ?_⟩
        show (modifyAt (fun r => _handleToggleExpandClick r k) i t.body)[j]?
          = t.body[j]?
        rw [getElem?_modifyAt, if_neg hj]
      · exact ⟨rfl, rfl, rfl, fun j hj => rfl⟩

/-- C4: dispatching a click on one row's expander leaves every other body
row, the header, the footer and the grid template unchanged — the toggle
is scoped to the clicked cell's parent row. -/
theorem toggle_is_local (schema : List Column) (data : List Row) (i k j : Nat)
    (hj : j ≠ i) :
    (clickAt (render schema data) i k).body[j]? = (render schema data).body[j]?
  ∧ (clickAt (render schema data) i k).headers = (render schema data).headers
  ∧ (clickAt (render schema data) i k).footer = (render schema data).footer
  ∧ (clickAt (render schema data) i k).gridTemplate = (render schema data).gridTemplate := by
  obtain ⟨h1, h2, h3, h4⟩ := clickAt_frame (render schema data) i k
  exact ⟨h4 j hj, h1, h2, h3⟩

theorem toggle_is_local_witness :
    (clickAt (render sampleSchema sampleData) 1 0).body[0]?
      = (render sampleSchema sampleData).body[0]?
  ∧ (clickAt (render sampleSchema sampleData) 1 0).headers
      = (render sampleSchema sampleData).headers := by
  exact ⟨(toggle_is_local sampleSchema sampleData 1 0 0 (by decide)).1,
    (toggle_is_local sampleSchema sampleData 1 0 0 (by decide)).2.1⟩

theorem willUpdateSchemaStep_fail (parseSchema : String → Option (List Column))
    (changed : List String) (s : TableState)
    (h1 : "schema" ∈ changed) (h2 : s.schema ≠ "") (h3 : parseSchema s.schema = none) :
    willUpdateSchemaStep parseSchema changed s = (s, true) := by
  unfold willUpdateSchemaStep
  rw [if_pos ⟨h1, h2⟩, h3]

theorem willUpdateSchemaStep_some (parseSchema : String → Option (List Column))
    (changed : List String) (s : TableState) (sc : List Column)
    (h1 : "schema" ∈ changed) (h2 : s.schema ≠ "") (h3 : parseSchema s.schema = some sc) :
    willUpdateSchemaStep parseSchema changed s = ({ s with parsedSchema := sc }, false) := by
  unfold willUpdateSchemaStep
  rw [if_pos ⟨h1, h2⟩, h3]

theorem willUpdateSchemaStep_skip (parseSchema : String → Option (List Column))
    (changed : List String) (s : TableState)
    (h : ¬("schema" ∈ changed ∧ s.schema ≠ "")) :
    willUpdateSchemaStep parseSchema changed s = (s, false) := by
  unfold willUpdateSchemaStep
  rw [if_neg h]

theorem willUpdateSchemaStep_parsedData (parseSchema : String → Option (List Column))
    (changed : List String) (s : TableState) :
    (willUpdateSchemaStep parseSchema changed s).1.parsedData = s.parsedData := by
  unfold willUpdateSchemaStep
  split
  · cases parseSchema s.schema <;> rfl
  · rfl

/-- C5: an invalid textual input makes its `JSON.parse` throw; the update
propagates the error unrecovered, and any parsed value whose parse never
completed in that update keeps its previous in-memory value. -/
theorem parse_error_propagates (parseData : String → Option (List Row))
    (parseSchema : String → Option (List Column)) (changed : List String) (s : TableState) :
    (("data" ∈ changed ∧ s.data ≠ "" ∧ parseData s.data = none) →
        willUpdate parseData parseSchema changed s = (s, true))
  ∧ (("schema" ∈ changed ∧ s.schema ≠ "" ∧ parseSchema s.schema = none) →
        (willUpdate parseData parseSchema changed s).2 = true
        ∧ (willUpdate parseData parseSchema changed s).1.parsedSchema = s.parsedSchema) := by
  constructor
  · rintro ⟨h1, h2, h3⟩
    unfold willUpdate
    rw [if_pos ⟨h1, h2⟩, h3]
  · rintro ⟨h1, h2, h3⟩
    unfold willUpdate
    by_cases hd : "data" ∈ changed ∧ s.data ≠ ""
    · rw [if_pos hd]
      cases hpd : parseData s.data with
      | none => exact ⟨rfl, rfl⟩
      | some d =>
          show (willUpdateSchemaStep parseSchema changed { s with parsedData := d }).2 = true
            ∧ (willUpdateSchemaStep parseSchema changed
                { s with parsedData := d }).1.parsedSchema = s.parsedSchema
          rw [willUpdateSchemaStep_fail parseSchema changed { s with parsedData := d } h1 h2 h3]
          exact ⟨rfl, rfl⟩
    · rw [if_neg hd, willUpdateSchemaStep_fail parseSchema changed s h1 h2 h3]
      exact ⟨rfl, rfl⟩

theorem parse_error_propagates_witness :
    willUpdate failOnBad parseOkSchema ["data"] stateBadData = (stateBadData, true)
  ∧ (willUpdate failOnBad (fun _ => none) ["schema"] stateBadData).2 = true := by
  constructor
  · exact (parse_error_propagates failOnBad parseOkSchema ["data"] stateBadData).1
      ⟨by decide, by decide, by decide⟩
  · exact ((parse_error_propagates failOnBad (fun _ => none) ["schema"] stateBadData).2
      ⟨by decide, by decide, rfl⟩).1

/-- C6 counterexample: with both inputs changed, the schema string
non-empty and parseable, a parse failure of the data input prevents the
schema from being re-parsed at all — the update throws and the in-memory
schema keeps its old value instead of the freshly parsed one.  This
contradicts the claim that failing to re-parse one input has no effect on
whether the other changed input is parsed. -/
theorem parse_independence_cex :
    ("schema" ∈ ["data", "schema"] ∧ stateBadData.schema ≠ ""
        ∧ parseOkSchema stateBadData.schema = some [colA])
  ∧ (willUpdate failOnBad parseOkSchema ["data", "schema"] stateBadData).2 = true
  ∧ (willUpdate failOnBad parseOkSchema ["data", "schema"] stateBadData).1.parsedSchema = []
  ∧ ([colA] : List Column) ≠ [] := by
  refine ⟨⟨?_, ?_, ?_⟩, ?_, ?_, ?_⟩ <;> decide

/-- C6 (amended): an input is re-parsed only when it changed and its new
string is non-empty; a successful attempted parse stores its value; the
parsed data never depends on the schema parse function; and the schema
parse result is independent of the data parse value, except that a data
parse failure aborts the update before the schema is parsed. -/
theorem parse_independence (parseData : String → Option (List Row))
    (parseSchema : String → Option (List Column)) (changed : List String) (s : TableState) :
    (("data" ∉ changed ∨ s.data = "") →
        (willUpdate parseData parseSchema changed s).1.parsedData = s.parsedData)
  ∧ (("schema" ∉ changed ∨ s.schema = "") →
        (willUpdate parseData parseSchema changed s).1.parsedSchema = s.parsedSchema)
  ∧ (∀ d, "data" ∈ changed → s.data ≠ "" → parseData s.data = some d →
        (willUpdate parseData parseSchema changed s).1.parsedData = d)
  ∧ (∀ ps2 : String → Option (List Column),
        (willUpdate parseData parseSchema changed s).1.parsedData
          = (willUpdate parseData ps2 changed s).1.parsedData)
  ∧ (∀ sc, "schema" ∈ changed → s.schema ≠ "" → parseSchema s.schema = some sc →
        ¬("data" ∈ changed ∧ s.data ≠ "" ∧ parseData s.data = none) →
        (willUpdate parseData parseSchema changed s).1.parsedSchema = sc) := by
  refine ⟨?_, ?_, ?_, ?_, ?_⟩
  · intro h
    have hd : ¬("data" ∈ changed ∧ s.data ≠ "") := by
      rintro ⟨hm, hne⟩
      rcases h with h | h
      · exact h hm
      · exact hne h
    unfold willUpdate
    rw [if_neg hd]
    exact willUpdateSchemaStep_parsedData parseSchema changed s
  · intro h
    have hs : ¬("schema" ∈ changed ∧ s.schema ≠ "") := by
      rintro ⟨hm, hne⟩
      rcases h with h | h
      · exact h hm
      · exact hne h
    unfold willUpdate
    by_cases hd : "data" ∈ changed ∧ s.data ≠ ""
    · rw [if_pos hd]
      cases hpd : parseData s.data with
      | none => rfl
      | some d =>
          show (willUpdateSchemaStep parseSchema changed
              { s with parsedData := d }).1.parsedSchema = s.parsedSchema
          rw [willUpdateSchemaStep_skip parseSchema changed { s with parsedData := d } hs]
    · rw [if_neg hd, willUpdateSchemaStep_skip parseSchema changed s hs]
  · intro d h1 h2 h3
    unfold willUpdate
    rw [if_pos ⟨h1, h2⟩, h3]
    show (willUpdateSchemaStep parseSchema changed
        { s with parsedData := d }).1.parsedData = d
    rw [willUpdateSchemaStep_parsedData]
  · intro ps2
    unfold willUpdate
    by_cases hd : "data" ∈ changed ∧ s.data ≠ ""
    · rw [if_pos hd, if_pos hd]
      cases hpd : parseData s.data with
      | none => rfl
      | some d =>
          show (willUpdateSchemaStep parseSchema changed
                { s with parsedData := d }).1.parsedData
            = (willUpdateSchemaStep ps2 changed { s with parsedData := d }).1.parsedData
          rw [willUpdateSchemaStep_parsedData, willUpdateSchemaStep_parsedData]
    · rw [if_neg hd, if_neg hd, willUpdateSchemaStep_parsedData parseSchema changed s,
        willUpdateSchemaStep_parsedData ps2 changed s]
  · intro sc h1 h2 h3 hnd
    unfold willUpdate
    by_cases hd : "data" ∈ changed ∧ s.data ≠ ""
    · rw [if_pos hd]
      cases hpd : parseData s.data with
      | none => exact absurd ⟨hd.1, hd.2, hpd⟩ hnd
      | some d =>
          show (willUpdateSchemaStep parseSchema changed
              { s with parsedData := d }).1.parsedSchema = sc
          rw [willUpdateSchemaStep_some parseSchema changed { s with parsedData := d } sc h1 h2 h3]
    · rw [if_neg hd, willUpdateSchemaStep_some parseSchema changed s sc h1 h2 h3]

theorem parse_independence_witness :
    (willUpdate failOnBad parseOkSchema ["schema"] stateBadData).1.parsedSchema = [colA]
  ∧ (willUpdate failOnBad parseOkSchema [] stateBadData).1.parsedData = [] := by
  constructor
  · exact (parse_independence failOnBad parseOkSchema ["schema"] stateBadData).2.2.2.2
      [colA] (by decide) (by decide) (by decide) (by decide)
  · exact (parse_independence failOnBad parseOkSchema [] stateBadData).1
      (Or.inl (by decide))

theorem not_mem_toggleClass {a : String} (cls : String) (hne : a ≠ cls)
    {l : List String} (h : a ∉ l) : a ∉ toggleClass cls l := by
  unfold toggleClass
  split
  · intro hm
    exact h (List.mem_of_mem_erase hm)
  · intro hm
    rcases List.mem_append.mp hm with h1 | h1
    · exact h h1
    · rw [List.mem_singleton] at h1
      exact hne h1

theorem toggleIfSubrow_of_neverHidden {c : Cell} (h : neverHiddenCell c) :
    toggleIfSubrow c = c := by
  unfold toggleIfSubrow
  have hb : (c.classes.contains "subrow") = false := by
    simp [List.contains, h.1]
  rw [hb]
  simp

theorem toggleExpanded_neverHidden {c : Cell} (h : neverHiddenCell c) :
    neverHiddenCell (toggleExpanded c) :=
  ⟨not_mem_toggleClass "expanded" (by decide) h.1,
   not_mem_toggleClass "expanded" (by decide) h.2⟩

/-- A dispatched click transforms any fixed cell position of the table by
the identity, the subrow-hidden toggle, the expander toggle, or both. -/
theorem clickAt_cell_evolves (t : RenderedTable) (i k j p : Nat) (c : Cell)
    (h : t.body[j]?.bind (fun tr => tr[p]?) = some c) :
    ∃ c2, (clickAt t i k).body[j]?.bind (fun tr => tr[p]?) = some c2
      ∧ (c2 = c ∨ c2 = toggleIfSubrow c ∨ c2 = toggleExpanded (toggleIfSubrow c)) := by
  unfold clickAt
  split
  · exact ⟨c, h, Or.inl rfl⟩
  · split
    · exact ⟨c, h, Or.inl rfl⟩
    · split
      · show ∃ c2, (modifyAt (fun r => _handleToggleExpandClick r k) i t.body)[j]?.bind
            (fun tr => tr[p]?) = some c2 ∧ _
        rw [getElem?_modifyAt]
        by_cases hji : j = i
        · rw [if_pos hji]
          cases hb : t.body[j]? with
          | none =>
              rw [hb] at h
              simp at h
          | some tr =>
              rw [hb] at h
              simp only [Option.some_bind] at h
              simp only [Option.map_some', Option.some_bind]
              unfold _handleToggleExpandClick
              rw [getElem?_modifyAt]
              by_cases hpk : p = k
              · rw [if_pos hpk, List.getElem?_map, h, Option.map_some', Option.map_some']
                exact ⟨_, rfl, Or.inr (Or.inr rfl)⟩
              · rw [if_neg hpk, List.getElem?_map, h, Option.map_some']
                exact ⟨_, rfl, Or.inr (Or.inl rfl)⟩
        · rw [if_neg hji]
          exact ⟨c, h, Or.inl rfl⟩
      · exact ⟨c, h, Or.inl rfl⟩

/-- Cells that carry neither `subrow` nor `hidden` keep that property
through any sequence of dispatched clicks. -/
theorem foldl_clicks_neverHidden (clicks : List (Nat × Nat)) :
    ∀ (t : RenderedTable) (j p : Nat) (c : Cell),
      t.body[j]?.bind (fun tr => tr[p]?) = some c → neverHiddenCell c →
      ∃ c2, (clicks.foldl (fun t2 q => clickAt t2 q.1 q.2) t).body[j]?.bind
          (fun tr => tr[p]?) = some c2 ∧ neverHiddenCell c2 := by
  induction clicks with
  | nil => exact fun t j p c h hc => ⟨c, h, hc⟩
  | cons q rest ih =>
      intro t j p c h hc
      obtain ⟨c2, h2, hcase⟩ := clickAt_cell_evolves t q.1 q.2 j p c h
      have hc2 : neverHiddenCell c2 := by
        rcases hcase with rfl | rfl | rfl
        · exact hc
        · rw [toggleIfSubrow_of_neverHidden hc]
          exact hc
        · rw [toggleIfSubrow_of_neverHidden hc]
          exact toggleExpanded_neverHidden hc
      exact ih (clickAt t q.1 q.2) j p c2 h2 hc2

/-- In the initial rendering, every cell of a grouped row's first subrow
carries neither the `subrow` nor the `hidden` class. -/
theorem render_firstSubrow_cell (schema : List Column) (data : List Row)
    (i p : Nat) (sr0 : Obj) (rest : List Obj)
    (hD : data[i]? = some (Row.grouped (sr0 :: rest))) (hp : p < schema.length + 1) :
    ∃ c, (render schema data).body[i]?.bind (fun tr => tr[p]?) = some c
      ∧ neverHiddenCell c := by
  rw [body_getElem? schema data i _ hD]
  simp only [Option.some_bind]
  rw [renderGroupedRow_cons]
  have hlen : p < (firstBlock schema sr0).length := by
    rw [length_firstBlock]
    exact hp
  rw [List.getElem?_append_left hlen, List.getElem?_eq_getElem hlen]
  refine ⟨_, rfl, ?_⟩
  have hmem : (firstBlock schema sr0)[p] ∈ firstBlock schema sr0 := List.getElem_mem _
  rcases List.mem_cons.mp hmem with he | hm
  · rw [he]
    exact ⟨by decide, by decide⟩
  · obtain ⟨h, -, heq⟩ := List.mem_map.mp hm
    rw [← heq]
    exact ⟨by simp, by simp⟩

/-- C10: the cells of a grouped row's first subrow are rendered without
the `subrow` and `hidden` markers and never acquire them under any
sequence of clicks anywhere in the table — the toggle flips visibility
only of cells marked `subrow`, and first-subrow cells never are, so the
first subrow stays visible in every reachable state. -/
theorem first_subrow_always_visible (schema : List Column) (data : List Row)
    (clicks : List (Nat × Nat)) (i p : Nat) (sr0 : Obj) (rest : List Obj)
    (hD : data[i]? = some (Row.grouped (sr0 :: rest))) (hp : p < schema.length + 1) :
    ∃ c, (applyClicks schema data clicks).body[i]?.bind (fun tr => tr[p]?) = some c
      ∧ "hidden" ∉ c.classes ∧ "subrow" ∉ c.classes := by
  obtain ⟨c0, h0, hc0⟩ := render_firstSubrow_cell schema data i p sr0 rest hD hp
  obtain ⟨c2, h2, hc2⟩ :=
    foldl_clicks_neverHidden clicks (render schema data) i p c0 h0 hc0
  exact ⟨c2, h2, hc2.2, hc2.1⟩

theorem first_subrow_always_visible_witness :
    ∃ c, (applyClicks sampleSchema sampleData [(1, 0)]).body[1]?.bind
        (fun tr => tr[0]?) = some c
      ∧ "hidden" ∉ c.classes ∧ "subrow" ∉ c.classes := by
  exact first_subrow_always_visible sampleSchema sampleData [(1, 0)] 1 0 subObj2 [subObj3]
    (by decide) (by decide)

end ReactiveTable
